import Mathlib

/-!
# Verification of the Local AI service configuration engine

A shallow embedding, in Lean 4, of the configuration resolution and
artifact generation engine of the `local-ai-stripped` repository
(`start_services_enhanced.py` and `configure_services.py`), together
with proofs and refutations of the specification claims about it.

Conventions of the embedding:
* Python dictionaries that act as records (a service's configuration,
  the top-level config file) become Lean structures; a field read with
  `dict.get(key, default)` becomes an `Option`-typed field read with
  `Option.getD`, so that a missing key is distinguishable from a
  present one (Python's `d[k] = v` on a previously missing key is
  observable, e.g. by `toggle_service`).
* The insertion-ordered service and profile maps become ordered
  association lists (`List (String × _)`); Python dict keys are unique,
  and first-occurrence `List.lookup` agrees with dict lookup there.
* Code that can raise (`d[k]` on a missing key, list indexing) returns
  `Option`; `none` models the raised exception.
* Machine-independent Python `int` is modelled by `Int`.
* Python `str.replace`, `str.strip`, `str.upper` and `int(...)` are
  modelled by executable Lean functions over `List Char` (ASCII range;
  the configuration data in scope is ASCII).
* File writing, printing and subprocess invocation are I/O glue, out
  of scope; generators return the data that the source serializes.
-/

/-! ## Python string primitives -/

/-- One step-bounded worker for `pyReplace`.  Walks the subject string
left to right; whenever the pattern `t` is a prefix of the remaining
input it emits the replacement `v` and skips over the matched pattern,
otherwise it copies one character.  This is exactly the leftmost,
non-overlapping, replace-all semantics of Python's `str.replace` for a
non-empty pattern.  The `Nat` fuel only enables structural recursion;
with `fuel ≥ s.length` (and a non-empty pattern) it never runs out. -/
def repF (t v : List Char) : Nat → List Char → List Char
  | _, [] => []
  | 0, s => s
  | fuel+1, c :: rest =>
    if t.isPrefixOf (c :: rest) then
      v ++ repF t v fuel ((c :: rest).drop t.length)
    else
      c :: repF t v fuel rest

/-- Models Python `s.replace(t, v)` for a non-empty pattern `t`. -/
def pyReplace (s t v : String) : String :=
  ⟨repF t.data v.data s.data.length s.data⟩

/-- Boolean substring test: does `t` occur (contiguously) in `s`? -/
def containsSub (t : List Char) : List Char → Bool
  | [] => t.isEmpty
  | c :: rest => t.isPrefixOf (c :: rest) || containsSub t rest

/-- Models Python `str.strip()` (whitespace at both ends removed;
ASCII whitespace). -/
def pyStrip (s : String) : String :=
  ⟨((s.data.dropWhile Char.isWhitespace).reverse.dropWhile Char.isWhitespace).reverse⟩

/-- Digit-run acceptor for `int_of_string`: the state after the first
digit.  Accepts `([0-9] | _[0-9])*`, i.e. further digits with single
underscores allowed between digits (Python 3 numeric literals). -/
def pyDigitsRest : List Char → Bool
  | [] => true
  | '_' :: c :: rest => c.isDigit && pyDigitsRest rest
  | '_' :: [] => false
  | c :: rest => c.isDigit && pyDigitsRest rest

/-- Does `l` consist of digits with legal underscore separators
(`[0-9]+(_?[0-9]+)*`, Python's decimal integer literal body)? -/
def pyDigitsBody : List Char → Bool
  | [] => false
  | c :: rest => c.isDigit && pyDigitsRest rest

/-- Decimal value of a digit/underscore run (underscores skipped). -/
def digitsVal (l : List Char) : Nat :=
  l.foldl (fun a c => if c = '_' then a else a * 10 + (c.toNat - '0'.toNat)) 0

/-- Models Python `int(s)` on an (ASCII) string: optional sign, then a
nonempty digit run with optional single underscores between digits.
`none` models the raised `ValueError`.  (The caller strips whitespace
before parsing, matching the source's `input().strip()`.) -/
def int_of_string (s : String) : Option Int :=
  match s.data with
  | '+' :: rest => if pyDigitsBody rest then some (Int.ofNat (digitsVal rest)) else none
  | '-' :: rest => if pyDigitsBody rest then some (-(Int.ofNat (digitsVal rest))) else none
  | rest => if pyDigitsBody rest then some (Int.ofNat (digitsVal rest)) else none

/-! ## JSON value model and the variable substitution pass

`_substitute_variables` walks the raw JSON configuration before any
structural interpretation, so it is modelled on a JSON value type.
Sequences and mappings are represented as cons-chains of dedicated
constructors so that every recursion is structural (and hence
kernel-computable). -/

/-- A JSON value, as produced by `json.load`.  `arrCons h t` is the
list with head `h` and tail `t` (`t` built from `arrCons`/`arrNil`);
`objCons k v t` is the object binding `k` to `v` in front of the
remaining bindings `t`. -/
inductive JValue where
  | str (s : String)
  | num (n : Int)
  | bool (b : Bool)
  | null
  | arrNil
  | arrCons (hd tl : JValue)
  | objNil
  | objCons (key : String) (val tl : JValue)
deriving DecidableEq, Repr

/-- Object field lookup, models Python `d.get(key)` on a dict built as
an `objCons` chain (`none` on a missing key or a non-object). -/
def jField : JValue → String → Option JValue
  | .objCons k v t, key => if k = key then some v else jField t key
  | _, _ => none

/-- The single placeholder token recognized by the substitution pass. -/
def placeholderToken : String := "$\x7bdefault_host_ip\x7d"

/-- Models `config.get('global', {}).get('default_host_ip', '127.0.0.1')`
(the resolved default host address; total on well-typed configurations,
where `global`, if present, is an object and `default_host_ip`, if
present, is a string). -/
def default_host_ip (config : JValue) : String :=
  match jField config "global" with
  | some g =>
    match jField g "default_host_ip" with
    | some (.str s) => s
    | _ => "127.0.0.1"
  | none => "127.0.0.1"

/-- The recursive body of `_substitute_variables`: replace the token by
`v` in every string, at any nesting depth; keys and non-string scalars
are unchanged. -/
def substRecursive (v : String) : JValue → JValue
  | .str s => .str (pyReplace s placeholderToken v)
  | .num n => .num n
  | .bool b => .bool b
  | .null => .null
  | .arrNil => .arrNil
  | .arrCons h t => .arrCons (substRecursive v h) (substRecursive v t)
  | .objNil => .objNil
  | .objCons k x t => .objCons k (substRecursive v x) (substRecursive v t)

/-- Models `ServiceManager._substitute_variables`: read the resolved
default host address from the configuration itself, then substitute the
placeholder token everywhere. -/
def substitute_variables (config : JValue) : JValue :=
  substRecursive (default_host_ip config) config

/-- Does any string anywhere in the JSON value contain the placeholder
token? -/
def jHasToken : JValue → Bool
  | .str s => containsSub placeholderToken.data s.data
  | .arrCons h t => jHasToken h || jHasToken t
  | .objCons _ x t => jHasToken x || jHasToken t
  | _ => false

/-! ## Structured configuration model

The shape the Python code reads off the loaded JSON dict: a top-level
dict with (possibly absent) sections `global`, `services`, `profiles`;
services and profiles are insertion-ordered maps with unique keys,
modelled as ordered association lists. -/

/-- One `ports` entry of a service (`host_ip`, `host_port`,
`container_port` are read with `d[k]`, `protocol` with
`d.get('protocol', 'tcp')`). -/
structure PortMapping where
  host_ip : String
  host_port : Int
  container_port : Int
  protocol : Option String
deriving DecidableEq, Repr

/-- One service's configuration dict.  Every field the engine reads is
read with `.get(key, default)`, hence `Option` (or a list defaulting to
`[]`, where a missing key is indistinguishable from `[]` in the code in
scope). -/
structure Service where
  enabled : Option Bool
  category : Option String
  description : Option String
  ports : List PortMapping
  profiles : List String
  reverse_proxy : Option Bool
deriving DecidableEq, Repr

/-- One profile's configuration dict. -/
structure ProfileDef where
  description : Option String
  included_services : List String
deriving DecidableEq, Repr

/-- The `global` section (contents are only read elsewhere via the JSON
model; kept for completeness). -/
structure GlobalCfg where
  project_name : Option String
  default_host_ip : Option String
deriving DecidableEq, Repr

/-- The loaded configuration dict.  Each section is `Option`al because
`validate_config` checks for its presence, and the other methods index
it directly (raising `KeyError`, modelled as `none` results, when it is
absent). -/
structure ConfigFile where
  global? : Option GlobalCfg
  services? : Option (List (String × Service))
  profiles? : Option (List (String × ProfileDef))
deriving DecidableEq, Repr

/-- A service dict for `.get(service_name, {})` misses. -/
def emptyService : Service :=
  { enabled := none, category := none, description := none
    ports := [], profiles := [], reverse_proxy := none }

/-! ## `ServiceManager.validate_config` -/

/-- Outcome of `validate_config`: the boolean result of the source
together with the diagnostic it prints.  `portConflict first second key`
models `"Error: Port conflict! {key} is used by both {first} and
{second}"`; `missingSection s` models the missing-required-section
error. -/
inductive ValidationResult where
  | missingSection (section_name : String)
  | portConflict (first second key : String)
  | ok
deriving DecidableEq, Repr

/-- The conflict-map key `f"{host_ip}:{host_port}"` of a port entry. -/
def bindKey (p : PortMapping) : String :=
  p.host_ip ++ ":" ++ toString p.host_port

/-- Inner loop of the conflict scan: fold one enabled service's port
list into the `used_ports` map (an association list keyed by
`bindKey`), stopping at the first key already claimed. -/
def scanPorts (used : List (String × String)) (service_name : String) :
    List PortMapping → (List (String × String)) ⊕ (String × String × String)
  | [] => .inl used
  | p :: ps =>
    match used.lookup (bindKey p) with
    | some owner => .inr (owner, service_name, bindKey p)
    | none => scanPorts ((bindKey p, service_name) :: used) service_name ps

/-- Outer loop of the conflict scan over the service map: disabled
services (`.get('enabled', False)` falsy) are skipped entirely. -/
def scanServices (used : List (String × String)) :
    List (String × Service) → Option (String × String × String)
  | [] => none
  | (service_name, sc) :: rest =>
    if sc.enabled.getD false then
      match scanPorts used service_name sc.ports with
      | .inl used' => scanServices used' rest
      | .inr c => some c
    else scanServices used rest

/-- Models `ServiceManager.validate_config`: require the three
sections, then scan enabled services' port entries for a duplicate
`(host_ip, host_port)` key, reporting the first owner, the second
claimant and the key. -/
def validate_config (cfg : ConfigFile) : ValidationResult :=
  if cfg.global?.isNone then .missingSection "global"
  else if cfg.services?.isNone then .missingSection "services"
  else if cfg.profiles?.isNone then .missingSection "profiles"
  else
    match cfg.services? with
    | none => .ok
    | some svcs =>
      match scanServices [] svcs with
      | some (a, b, k) => .portConflict a b k
      | none => .ok

/-! ## `ServiceManager.get_enabled_services` -/

/-- Models `self.config.get('profiles', {}).get(profile, {})
.get('included_services', [])`. -/
def profile_included (cfg : ConfigFile) (profile : String) : List String :=
  match cfg.profiles? with
  | none => []
  | some profs =>
    match profs.lookup profile with
    | none => []
    | some pd => pd.included_services

/-- Models `ServiceManager.get_enabled_services`.  `none` models the
`KeyError` on a missing `services` section.  The `profile` argument is
Python `Optional[str]`; the filter branch is taken when the profile is
truthy and not the sentinel `'all'`. -/
def get_enabled_services (cfg : ConfigFile) (profile : Option String) :
    Option (List String) := do
  let svcs ← cfg.services?
  pure (svcs.filterMap (fun z =>
    if z.2.enabled.getD false then
      match profile with
      | some p =>
        if p ≠ "" ∧ p ≠ "all" then
          if p ∈ z.2.profiles ∨ z.1 ∈ profile_included cfg p then some z.1
          else none
        else some z.1
      | none => some z.1
    else none))

/-! ## `ServiceManager.generate_override_file` -/

/-- The binding string emitted for one port entry, or `none` when the
entry is suppressed (`continue`).  Private environment: always
`host_ip:host_port:container_port/protocol`.  Any other environment
(the public path): only the service literally named `'caddy'`, and only
its all-interfaces (`0.0.0.0`) bindings, without the host prefix. -/
def format_port_mapping (service_name environment : String)
    (p : PortMapping) : Option String :=
  if environment = "private" then
    some (p.host_ip ++ ":" ++ toString p.host_port ++ ":"
      ++ toString p.container_port ++ "/" ++ p.protocol.getD "tcp")
  else
    if service_name ∈ ["caddy"] then
      if p.host_ip = "0.0.0.0" then
        some (toString p.host_port ++ ":" ++ toString p.container_port
          ++ "/" ++ p.protocol.getD "tcp")
      else none
    else none

/-- Models `ServiceManager.generate_override_file`, returning the
`override_config['services']` mapping it serializes (file writing is
I/O, out of scope): per requested service, its emitted binding strings;
services with no ports or with every binding suppressed get no entry. -/
def generate_override_file (cfg : ConfigFile) (services : List String)
    (environment : String) : Option (List (String × List String)) := do
  let svcMap ← cfg.services?
  pure (services.filterMap (fun service_name =>
    let sc := (svcMap.lookup service_name).getD emptyService
    if sc.ports = [] then none
    else
      let port_mappings := sc.ports.filterMap
        (format_port_mapping service_name environment)
      if port_mappings = [] then none
      else some (service_name, port_mappings)))

/-! ## `ServiceManager.generate_caddyfile` -/

/-- The static well-known-service hostname table of
`_get_hostname_variable`. -/
def hostname_map : List (String × String) :=
  [("n8n", "$N8N_HOSTNAME"),
   ("open-webui", "$WEBUI_HOSTNAME"),
   ("flowise", "$FLOWISE_HOSTNAME"),
   ("langfuse-web", "$LANGFUSE_HOSTNAME"),
   ("neo4j", "$NEO4J_HOSTNAME"),
   ("searxng", "$SEARXNG_HOSTNAME"),
   ("portainer", "$PORTAINER_HOSTNAME")]

/-- Models `ServiceManager._get_hostname_variable`: the static table,
falling back to `'$' + name.upper().replace('-', '_') + '_HOSTNAME'`. -/
def get_hostname_variable (service_name : String) : String :=
  (hostname_map.lookup service_name).getD
    ("$" ++ pyReplace ⟨service_name.data.map Char.toUpper⟩ "-" "_" ++ "_HOSTNAME")

/-- The lines `generate_caddyfile` appends for one requested service:
empty unless the service is flagged `reverse_proxy` and has at least
one port; otherwise a comment carrying the description, a site block
keyed by the hostname variable that proxies to
`service_name:container_port` of the first port, and a blank line. -/
def caddy_service_block (svcMap : List (String × Service))
    (service_name : String) : List String :=
  let sc := (svcMap.lookup service_name).getD emptyService
  if sc.reverse_proxy.getD false then
    match sc.ports with
    | [] => []
    | p :: _ =>
      ["# " ++ sc.description.getD service_name,
       "\x7b" ++ get_hostname_variable service_name ++ "\x7d \x7b",
       "    reverse_proxy " ++ service_name ++ ":" ++ toString p.container_port,
       "\x7d",
       ""]
  else []

/-- Models `ServiceManager.generate_caddyfile`, returning the
`caddy_config` line list it joins with newlines and writes (the file
write is I/O, out of scope): global options block, per-service blocks,
and the trailing addon import. -/
def generate_caddyfile (cfg : ConfigFile) (services : List String) :
    Option (List String) := do
  let svcMap ← cfg.services?
  pure (["\x7b\n    email \x7b$LETSENCRYPT_EMAIL\x7d\n\x7d", ""]
    ++ services.flatMap (caddy_service_block svcMap)
    ++ ["import /etc/caddy/addons/*.conf", ""])

/-! ## `ServiceConfigurator.toggle_service` -/

/-- Set the `enabled` field of the (first, hence with unique keys the
only) entry named `service_name` to the explicit boolean `v`; models
`self.config['services'][service_name]['enabled'] = v`. -/
def set_enabled (service_name : String) (v : Bool) :
    List (String × Service) → List (String × Service)
  | [] => []
  | (n, sc) :: rest =>
    if n = service_name then (n, { sc with enabled := some v }) :: rest
    else (n, sc) :: set_enabled service_name v rest

/-- Models `ServiceConfigurator.toggle_service`: if the name is in the
service map, set its `enabled` flag to the negation of its current
`.get('enabled', False)` value; otherwise print and leave the registry
unchanged.  `none` models the `KeyError` on a missing `services`
section. -/
def toggle_service (cfg : ConfigFile) (service_name : String) :
    Option ConfigFile := do
  let svcs ← cfg.services?
  match svcs.lookup service_name with
  | none => pure cfg
  | some sc =>
    pure { cfg with
      services? := some (set_enabled service_name (!(sc.enabled.getD false)) svcs) }

/-! ## `ServiceConfigurator.check_port_conflict` -/

/-- The loop body of `check_port_conflict` over a concrete service
list: is `(host_ip, host_port)` claimed by some service other than
`current_service` that is enabled? -/
def port_conflict_scan (svcs : List (String × Service))
    (current_service host_ip : String) (host_port : Int) : Bool :=
  svcs.any (fun z =>
    if z.1 = current_service ∨ ¬(z.2.enabled.getD false) then false
    else z.2.ports.any (fun p =>
      p.host_ip == host_ip && p.host_port == host_port))

/-- Models `ServiceConfigurator.check_port_conflict`.  `none` models
the `KeyError` on a missing `services` section. -/
def check_port_conflict (cfg : ConfigFile)
    (current_service host_ip : String) (host_port : Int) : Option Bool := do
  let svcs ← cfg.services?
  pure (port_conflict_scan svcs current_service host_ip host_port)

/-! ## `ServiceConfigurator.edit_single_port` -/

/-- The host-IP step of `edit_single_port`: the stripped input is
applied when non-empty and different from the current address. -/
def apply_ip_edit (pc : PortMapping) (ip_input : String) : PortMapping :=
  let new_ip := pyStrip ip_input
  if new_ip ≠ "" ∧ new_ip ≠ pc.host_ip then { pc with host_ip := new_ip } else pc

/-- Replace the port entry at `port_index` of the (first) service named
`service_name`; models the in-place mutation of the shared
`port_config` dict. -/
def setPortAt (service_name : String) (port_index : Nat) (p : PortMapping) :
    List (String × Service) → List (String × Service)
  | [] => []
  | (n, sc) :: rest =>
    if n = service_name then (n, { sc with ports := sc.ports.set port_index p }) :: rest
    else (n, sc) :: setPortAt service_name port_index p rest

/-- The host-port step of `edit_single_port` (source lines 161–178):
an empty stripped input leaves the entry (as already IP-edited, `pc1`)
alone; a non-integer input (`ValueError`), an out-of-range value, or a
value equal to the current port also leave it alone; a new in-range
value is rejected (entry left at `pc1`) when the conflict check — run
against the registry as already mutated by the IP edit (`svcs1`) and
with the possibly-updated host address `pc1.host_ip` — fires, and
otherwise stored.  `pc` is the entry as it was when `current_port` was
read (its `host_port` is unchanged by the IP edit). -/
def apply_port_edit (pc pc1 : PortMapping) (svcs1 : List (String × Service))
    (service_name : String) (port_input : String) : PortMapping :=
  let new_port_str := pyStrip port_input
  if new_port_str = "" then pc1
  else
    match int_of_string new_port_str with
    | none => pc1
    | some new_port =>
      if 1 ≤ new_port ∧ new_port ≤ 65535 then
        if new_port ≠ pc.host_port then
          if port_conflict_scan svcs1 service_name pc1.host_ip new_port then pc1
          else { pc1 with host_port := new_port }
        else pc1
      else pc1

/-- Models `ServiceConfigurator.edit_single_port` as a pure function of
the two (raw) interactive inputs.  `none` models the exception raised
by `self.config['services'][service_name]['ports'][port_index]` when
the section, service or index is absent.  The host-IP edit is applied
*before* the host-port input is validated (as in the source). -/
def edit_single_port (cfg : ConfigFile) (service_name : String)
    (port_index : Nat) (ip_input port_input : String) : Option ConfigFile := do
  let svcs ← cfg.services?
  let sc ← svcs.lookup service_name
  let pc ← sc.ports.get? port_index
  let pc1 := apply_ip_edit pc ip_input
  let svcs1 := setPortAt service_name port_index pc1 svcs
  let pc2 := apply_port_edit pc pc1 svcs1 service_name port_input
  pure { cfg with services? := some (setPortAt service_name port_index pc2 svcs) }

/-! ## Proof-layer definitions

`enabledBindings` flattens the nested conflict-scan loops of
`validate_config` into the stream of `(owner, port entry)` pairs it
visits, in visit order; `portScan` is the corresponding single-loop
scan.  `scanServices` is proved equal to `portScan` over
`enabledBindings` below. -/

/-- All port entries of enabled services, tagged with their owning
service name, in the order `validate_config` visits them. -/
def enabledBindings (svcs : List (String × Service)) : List (String × PortMapping) :=
  svcs.flatMap (fun z =>
    if z.2.enabled.getD false then z.2.ports.map (fun p => (z.1, p)) else [])

/-- Single-loop form of the conflict scan over the flattened binding
stream. -/
def portScan (used : List (String × String)) :
    List (String × PortMapping) → Option (String × String × String)
  | [] => none
  | (service_name, p) :: rest =>
    match used.lookup (bindKey p) with
    | some owner => some (owner, service_name, bindKey p)
    | none => portScan ((bindKey p, service_name) :: used) rest

/-- Two distinct positions in the flattened enabled-binding stream
carry the same `(host_ip, host_port)` pair: the claim-level notion of a
port conflict among enabled services. -/
def HasPortConflict (svcs : List (String × Service)) : Prop :=
  ∃ l₁ x l₂ y l₃, enabledBindings svcs = l₁ ++ x :: (l₂ ++ y :: l₃)
    ∧ (x : String × PortMapping).2.host_ip = (y : String × PortMapping).2.host_ip
    ∧ x.2.host_port = y.2.host_port

/-! ## Concrete example registries (for witnesses and counterexamples) -/

/-- Service list of C1's spec example: enabled `a` at
`127.0.0.1:8000→80` and enabled `b` at `127.0.0.1:8000→81`. -/
def svcsC1 : List (String × Service) :=
  [("a", { enabled := some true, category := none, description := none,
           ports := [⟨"127.0.0.1", 8000, 80, none⟩], profiles := [],
           reverse_proxy := none }),
   ("b", { enabled := some true, category := none, description := none,
           ports := [⟨"127.0.0.1", 8000, 81, none⟩], profiles := [],
           reverse_proxy := none })]

/-- C1's spec example registry. -/
def cfgC1 : ConfigFile :=
  { global? := some ⟨none, none⟩, services? := some svcsC1, profiles? := some [] }

/-- Service list of C2's spec example: enabled, reverse-proxied `web`
with the wildcard binding `0.0.0.0:443→8443`, and enabled `admin` with
a non-wildcard binding. -/
def svcsC2 : List (String × Service) :=
  [("web", { enabled := some true, category := none, description := none,
             ports := [⟨"0.0.0.0", 443, 8443, none⟩], profiles := [],
             reverse_proxy := some true }),
   ("admin", { enabled := some true, category := none, description := none,
               ports := [⟨"127.0.0.1", 9000, 90, none⟩], profiles := [],
               reverse_proxy := none })]

/-- C2's spec example registry. -/
def cfgC2 : ConfigFile :=
  { global? := some ⟨none, none⟩, services? := some svcsC2, profiles? := some [] }

/-- The same wildcard binding owned by the service actually named
`caddy` (the hard-coded public ingress of the source). -/
def svcsC2caddy : List (String × Service) :=
  [("caddy", { enabled := some true, category := none, description := none,
               ports := [⟨"0.0.0.0", 443, 8443, none⟩], profiles := [],
               reverse_proxy := some true })]

/-- Registry owning the wildcard binding under the name `caddy`. -/
def cfgC2caddy : ConfigFile :=
  { global? := some ⟨none, none⟩, services? := some svcsC2caddy, profiles? := some [] }

/-- Service list of the C3 example: `svc1` declares membership in
profile `gpu` itself; `svc2` is named only by profile `gpu`'s
`included_services`. -/
def svcsC3 : List (String × Service) :=
  [("svc1", { enabled := some true, category := none, description := none,
              ports := [], profiles := ["gpu"], reverse_proxy := none }),
   ("svc2", { enabled := some true, category := none, description := none,
              ports := [], profiles := [], reverse_proxy := none })]

/-- C3 example registry. -/
def cfgC3 : ConfigFile :=
  { global? := some ⟨none, none⟩, services? := some svcsC3,
    profiles? := some [("gpu", { description := none, included_services := ["svc2"] })] }

/-- C4 counterexample: the resolved default host address is `ip}`,
which does not contain the placeholder token, yet substituting the
crafted field `${default_host_${default_host_ip}` once yields the token
itself, so a second pass changes it again. -/
def jC4 : JValue :=
  .objCons "global" (.objCons "default_host_ip" (.str "ip\x7d") .objNil)
    (.objCons "services"
      (.objCons "x" (.str "$\x7bdefault_host_$\x7bdefault_host_ip\x7d") .objNil)
      .objNil)

/-- C4 witness: an ordinary registry whose substituted form is free of
the token. -/
def jC4good : JValue :=
  .objCons "global" (.objCons "default_host_ip" (.str "127.0.0.1") .objNil)
    (.objCons "services"
      (.objCons "x" (.str "$\x7bdefault_host_ip\x7d:8000") .objNil)
      .objNil)

/-- Service list of the C5 registry: one enabled service `x` with the
single binding `127.0.0.1:8000→80`. -/
def svcsC5 : List (String × Service) :=
  [("x", { enabled := some true, category := none, description := none,
           ports := [⟨"127.0.0.1", 8000, 80, none⟩], profiles := [],
           reverse_proxy := none })]

/-- C5 registry. -/
def cfgC5 : ConfigFile :=
  { global? := some ⟨none, none⟩, services? := some svcsC5, profiles? := some [] }

/-- Service list of the C6 example: three enabled and two disabled
services, interleaved (one disabled by an explicit `false`, one by a
missing flag). -/
def svcsC6 : List (String × Service) :=
  [("e1", { enabled := some true, category := none, description := none,
            ports := [], profiles := [], reverse_proxy := none }),
   ("d1", { enabled := some false, category := none, description := none,
            ports := [], profiles := [], reverse_proxy := none }),
   ("e2", { enabled := some true, category := none, description := none,
            ports := [], profiles := [], reverse_proxy := none }),
   ("d2", { enabled := none, category := none, description := none,
            ports := [], profiles := [], reverse_proxy := none }),
   ("e3", { enabled := some true, category := none, description := none,
            ports := [], profiles := [], reverse_proxy := none })]

/-- C6 example registry. -/
def cfgC6 : ConfigFile :=
  { global? := some ⟨none, none⟩, services? := some svcsC6, profiles? := some [] }

/-- Service list of the C7 example: reverse-proxied `n8n` with a
described port. -/
def svcsC7 : List (String × Service) :=
  [("n8n", { enabled := some true, category := none,
             description := some "Workflow automation",
             ports := [⟨"127.0.0.1", 5678, 5678, none⟩], profiles := [],
             reverse_proxy := some true })]

/-- C7 example registry. -/
def cfgC7 : ConfigFile :=
  { global? := some ⟨none, none⟩, services? := some svcsC7, profiles? := some [] }

/-- Service list of the C8 example: a single enabled service declaring
the same `(host_ip, host_port)` twice. -/
def svcsC8 : List (String × Service) :=
  [("x", { enabled := some true, category := none, description := none,
           ports := [⟨"0.0.0.0", 80, 8080, none⟩, ⟨"0.0.0.0", 80, 9090, none⟩],
           profiles := [], reverse_proxy := none })]

/-- C8 example registry. -/
def cfgC8 : ConfigFile :=
  { global? := some ⟨none, none⟩, services? := some svcsC8, profiles? := some [] }

/-- Service list of the C9 example: `x` (being edited) already binds
`127.0.0.1:9999` itself, and so does the *disabled* `y`. -/
def svcsC9 : List (String × Service) :=
  [("x", { enabled := some true, category := none, description := none,
           ports := [⟨"127.0.0.1", 8000, 80, none⟩, ⟨"127.0.0.1", 9999, 81, none⟩],
           profiles := [], reverse_proxy := none }),
   ("y", { enabled := some false, category := none, description := none,
           ports := [⟨"127.0.0.1", 9999, 90, none⟩], profiles := [],
           reverse_proxy := none })]

/-- C9 example registry. -/
def cfgC9 : ConfigFile :=
  { global? := some ⟨none, none⟩, services? := some svcsC9, profiles? := some [] }

/-- Service list of the C10 counterexample: service `x` whose dict has
no `enabled` key at all. -/
def svcsC10 : List (String × Service) :=
  [("x", { enabled := none, category := none, description := none,
           ports := [], profiles := [], reverse_proxy := none })]

/-- C10 counterexample registry. -/
def cfgC10 : ConfigFile :=
  { global? := some ⟨none, none⟩, services? := some svcsC10, profiles? := some [] }

/-- Service list of the C10 witness registry: `x` with an explicit
`enabled` flag, plus a second service. -/
def svcsC10b : List (String × Service) :=
  [("x", { enabled := some true, category := none, description := none,
           ports := [], profiles := [], reverse_proxy := none }),
   ("y", { enabled := some false, category := none, description := none,
           ports := [], profiles := [], reverse_proxy := none })]

/-- C10 witness registry. -/
def cfgC10b : ConfigFile :=
  { global? := some ⟨none, none⟩, services? := some svcsC10b, profiles? := some [] }

/-! ## Decimal representation lemmas

The conflict map of `validate_config` is keyed by the string
`f"{host_ip}:{host_port}"`.  To speak of `(host_ip, host_port)` pairs,
as the specification does, we prove that this key determines the pair:
the decimal rendering of an integer contains no `':'` and is injective,
so splitting the key at its last colon recovers both components. -/

lemma digitChar_eq_star (k : Nat) (h : 16 ≤ k) : Nat.digitChar k = '*' := by
  unfold Nat.digitChar
  rw [if_neg (show ¬ k = 0 by omega), if_neg (show ¬ k = 1 by omega),
    if_neg (show ¬ k = 2 by omega), if_neg (show ¬ k = 3 by omega),
    if_neg (show ¬ k = 4 by omega), if_neg (show ¬ k = 5 by omega),
    if_neg (show ¬ k = 6 by omega), if_neg (show ¬ k = 7 by omega),
    if_neg (show ¬ k = 8 by omega), if_neg (show ¬ k = 9 by omega),
    if_neg (show ¬ k = 10 by omega), if_neg (show ¬ k = 11 by omega),
    if_neg (show ¬ k = 12 by omega), if_neg (show ¬ k = 13 by omega),
    if_neg (show ¬ k = 14 by omega), if_neg (show ¬ k = 15 by omega)]

lemma digitChar_ne_colon (k : Nat) : Nat.digitChar k ≠ ':' := by
  rcases Nat.lt_or_ge k 16 with h | h
  · interval_cases k <;> decide
  · rw [digitChar_eq_star k h]; decide

lemma digitChar_ne_minus (k : Nat) : Nat.digitChar k ≠ '-' := by
  rcases Nat.lt_or_ge k 16 with h | h
  · interval_cases k <;> decide
  · rw [digitChar_eq_star k h]; decide

lemma digitChar_inj_lt : ∀ m < 10, ∀ k < 10, Nat.digitChar m = Nat.digitChar k → m = k := by
  decide

lemma toDigitsCore_chars_ne (x : Char) (hx : ∀ k, Nat.digitChar k ≠ x) :
    ∀ (fuel n : Nat) (ds : List Char), (∀ c ∈ ds, c ≠ x) →
      ∀ c ∈ Nat.toDigitsCore 10 fuel n ds, c ≠ x := by
  intro fuel
  induction fuel with
  | zero => intro n ds hds c hc; exact hds c hc
  | succ fuel ih =>
    intro n ds hds c hc
    simp only [Nat.toDigitsCore] at hc
    split at hc
    · rcases List.mem_cons.mp hc with h | h
      · subst h; exact hx _
      · exact hds c h
    · refine ih (n / 10) _ ?_ c hc
      intro c' hc'
      rcases List.mem_cons.mp hc' with h | h
      · subst h; exact hx _
      · exact hds c' h

lemma toDigitsCore_append (fuel : Nat) :
    ∀ (n : Nat) (ds : List Char),
      Nat.toDigitsCore 10 fuel n ds = Nat.toDigitsCore 10 fuel n [] ++ ds := by
  induction fuel with
  | zero => intro n ds; simp [Nat.toDigitsCore]
  | succ fuel ih =>
    intro n ds
    simp only [Nat.toDigitsCore]
    split
    · rfl
    · rw [ih (n / 10) [Nat.digitChar (n % 10)], ih (n / 10) (Nat.digitChar (n % 10) :: ds),
        List.append_assoc]
      rfl

lemma toDigitsCore_fuel_irrel : ∀ (n f₁ f₂ : Nat), n < f₁ → n < f₂ →
    Nat.toDigitsCore 10 f₁ n [] = Nat.toDigitsCore 10 f₂ n [] := by
  intro n
  induction n using Nat.strong_induction_on with
  | _ n ih =>
    intro f₁ f₂ h₁ h₂
    match f₁, f₂ with
    | a+1, b+1 =>
      simp only [Nat.toDigitsCore]
      split
      · rfl
      · rename_i hdiv
        have hlt : n / 10 < n := Nat.div_lt_self (by omega) (by omega)
        rw [toDigitsCore_append a, toDigitsCore_append b,
          ih (n / 10) hlt a b (by omega) (by omega)]

lemma toDigits_peel (n : Nat) :
    Nat.toDigits 10 n =
      if n < 10 then [Nat.digitChar n]
      else Nat.toDigits 10 (n / 10) ++ [Nat.digitChar (n % 10)] := by
  by_cases h10 : n < 10
  · rw [if_pos h10]
    have hdiv : n / 10 = 0 := Nat.div_eq_of_lt h10
    show Nat.toDigitsCore 10 (n+1) n [] = _
    rw [Nat.toDigitsCore, if_pos hdiv, Nat.mod_eq_of_lt h10]
  · rw [if_neg h10]
    have hdiv : ¬ n / 10 = 0 := by
      intro h
      exact h10 ((Nat.div_eq_zero_iff (by omega)).mp h)
    have hlt : n / 10 < n := Nat.div_lt_self (by omega) (by omega)
    show Nat.toDigitsCore 10 (n+1) n [] = _
    rw [Nat.toDigitsCore, if_neg hdiv, toDigitsCore_append n,
      toDigitsCore_fuel_irrel (n / 10) n ((n / 10) + 1) (by omega) (Nat.lt_succ_self _)]
    rfl

lemma toDigits_ne_nil (n : Nat) : Nat.toDigits 10 n ≠ [] := by
  rw [toDigits_peel]
  split
  · simp
  · simp

lemma toDigits_inj : ∀ (a b : Nat), Nat.toDigits 10 a = Nat.toDigits 10 b → a = b := by
  intro a
  induction a using Nat.strong_induction_on with
  | _ a ih =>
    intro b hab
    rw [toDigits_peel a, toDigits_peel b] at hab
    by_cases ha : a < 10 <;> by_cases hb : b < 10
    · rw [if_pos ha, if_pos hb] at hab
      simp only [List.cons.injEq, and_true] at hab
      exact digitChar_inj_lt a ha b hb hab
    · rw [if_pos ha, if_neg hb] at hab
      rcases hbd : Nat.toDigits 10 (b / 10) with _ | ⟨c, cs⟩
      · exact absurd hbd (toDigits_ne_nil _)
      · rw [hbd] at hab
        simp at hab
    · rw [if_neg ha, if_pos hb] at hab
      rcases had : Nat.toDigits 10 (a / 10) with _ | ⟨c, cs⟩
      · exact absurd had (toDigits_ne_nil _)
      · rw [had] at hab
        simp at hab
    · rw [if_neg ha, if_neg hb] at hab
      have hsplit := List.append_inj' hab (by simp)
      have hdiv : a / 10 = b / 10 :=
        ih (a / 10) (Nat.div_lt_self (by omega) (by omega)) (b / 10) hsplit.1
      have hmod : a % 10 = b % 10 := by
        have h1 : Nat.digitChar (a % 10) = Nat.digitChar (b % 10) := by
          have := hsplit.2
          simp only [List.cons.injEq, and_true] at this
          exact this
        exact digitChar_inj_lt _ (Nat.mod_lt _ (by omega)) _ (Nat.mod_lt _ (by omega)) h1
      omega

lemma repr_data (n : Nat) : (Nat.repr n).data = Nat.toDigits 10 n := rfl

lemma repr_ne_colon (n : Nat) : ∀ c ∈ (Nat.repr n).data, c ≠ ':' := by
  rw [repr_data]
  exact toDigitsCore_chars_ne ':' digitChar_ne_colon (n+1) n [] (by simp)

lemma repr_ne_minus (n : Nat) : ∀ c ∈ (Nat.repr n).data, c ≠ '-' := by
  rw [repr_data]
  exact toDigitsCore_chars_ne '-' digitChar_ne_minus (n+1) n [] (by simp)

lemma repr_inj {a b : Nat} (h : Nat.repr a = Nat.repr b) : a = b := by
  apply toDigits_inj
  rw [← repr_data, ← repr_data, h]

lemma int_toString_ofNat (m : Nat) : toString (Int.ofNat m) = Nat.repr m := rfl

lemma int_toString_negSucc (m : Nat) :
    toString (Int.negSucc m) = "-" ++ Nat.repr (m + 1) := rfl

lemma int_toString_ne_colon (i : Int) : ∀ c ∈ (toString i).data, c ≠ ':' := by
  cases i with
  | ofNat m => exact repr_ne_colon m
  | negSucc m =>
    intro c hc
    rw [int_toString_negSucc, String.data_append] at hc
    rcases List.mem_append.mp hc with h | h
    · simp only [show ("-" : String).data = ['-'] from rfl, List.mem_singleton] at h
      subst h; decide
    · exact repr_ne_colon (m + 1) c h

lemma int_toString_inj {a b : Int} (h : toString a = toString b) : a = b := by
  cases a with
  | ofNat m =>
    cases b with
    | ofNat k =>
      rw [int_toString_ofNat, int_toString_ofNat] at h
      exact congrArg Int.ofNat (repr_inj h)
    | negSucc k =>
      exfalso
      rw [int_toString_ofNat, int_toString_negSucc] at h
      have hd := congrArg String.data h
      rw [String.data_append, repr_data] at hd
      rcases hmd : Nat.toDigits 10 m with _ | ⟨c, cs⟩
      · exact toDigits_ne_nil m hmd
      · rw [hmd] at hd
        have hc : c = '-' := by
          have : ("-" : String).data = ['-'] := rfl
          rw [this] at hd
          exact (List.cons.inj hd).1
        have : c ∈ (Nat.repr m).data := by rw [repr_data, hmd]; simp
        exact repr_ne_minus m c this hc
  | negSucc m =>
    cases b with
    | ofNat k =>
      exfalso
      rw [int_toString_ofNat, int_toString_negSucc] at h
      have hd := congrArg String.data h.symm
      rw [String.data_append, repr_data] at hd
      rcases hkd : Nat.toDigits 10 k with _ | ⟨c, cs⟩
      · exact toDigits_ne_nil k hkd
      · rw [hkd] at hd
        have hc : c = '-' := by
          have : ("-" : String).data = ['-'] := rfl
          rw [this] at hd
          exact (List.cons.inj hd).1
        have : c ∈ (Nat.repr k).data := by rw [repr_data, hkd]; simp
        exact repr_ne_minus k c this hc
    | negSucc k =>
      rw [int_toString_negSucc, int_toString_negSucc] at h
      have hd := congrArg String.data h
      rw [String.data_append, String.data_append] at hd
      have : (Nat.repr (m + 1)).data = (Nat.repr (k + 1)).data :=
        List.append_cancel_left hd
      have hmk := repr_inj (String.ext this)
      exact congrArg Int.negSucc (by omega : m = k)

lemma colon_split : ∀ (l₁ l₂ d₁ d₂ : List Char), ':' ∉ d₁ → ':' ∉ d₂ →
    l₁ ++ ':' :: d₁ = l₂ ++ ':' :: d₂ → l₁ = l₂ ∧ d₁ = d₂ := by
  intro l₁
  induction l₁ with
  | nil =>
    intro l₂ d₁ d₂ h₁ h₂ heq
    cases l₂ with
    | nil =>
      simp only [List.nil_append, List.cons.injEq, true_and] at heq
      exact ⟨rfl, heq⟩
    | cons c t =>
      exfalso
      simp only [List.nil_append, List.cons_append, List.cons.injEq] at heq
      exact h₁ (heq.2 ▸ List.mem_append_right t (List.mem_cons_self ':' d₂))
  | cons c t ih =>
    intro l₂ d₁ d₂ h₁ h₂ heq
    cases l₂ with
    | nil =>
      exfalso
      simp only [List.nil_append, List.cons_append, List.cons.injEq] at heq
      exact h₂ (heq.2 ▸ List.mem_append_right t (List.mem_cons_self ':' d₁))
    | cons c' t' =>
      simp only [List.cons_append, List.cons.injEq] at heq
      obtain ⟨h, hd⟩ := ih t' d₁ d₂ h₁ h₂ heq.2
      exact ⟨by rw [heq.1, h], hd⟩

lemma bindKey_inj {p q : PortMapping} :
    bindKey p = bindKey q ↔ p.host_ip = q.host_ip ∧ p.host_port = q.host_port := by
  constructor
  · intro h
    have hd := congrArg String.data h
    simp only [bindKey, String.data_append, List.append_assoc,
      show (":" : String).data = [':'] from rfl, List.singleton_append] at hd
    have h₁ : ':' ∉ (toString p.host_port).data := fun hc =>
      int_toString_ne_colon p.host_port ':' hc rfl
    have h₂ : ':' ∉ (toString q.host_port).data := fun hc =>
      int_toString_ne_colon q.host_port ':' hc rfl
    obtain ⟨hip, hport⟩ := colon_split _ _ _ _ h₁ h₂ hd
    exact ⟨String.ext hip, int_toString_inj (String.ext hport)⟩
  · rintro ⟨h₁, h₂⟩
    simp [bindKey, h₁, h₂]

/-! ## Conflict-scan characterization -/

lemma scanPorts_flatten (service_name : String) (rest : List (String × Service))
    (hrest : ∀ used, scanServices used rest = portScan used (enabledBindings rest)) :
    ∀ (ports : List PortMapping) (used : List (String × String)),
      (match scanPorts used service_name ports with
        | .inl u => scanServices u rest
        | .inr c => some c) =
      portScan used (ports.map (fun p => (service_name, p)) ++ enabledBindings rest) := by
  intro ports
  induction ports with
  | nil => intro used; simpa [scanPorts] using hrest used
  | cons p ps ih =>
    intro used
    simp only [scanPorts, List.map_cons, List.cons_append, portScan]
    cases h : used.lookup (bindKey p) with
    | some owner => simp
    | none => simpa using ih ((bindKey p, service_name) :: used)

lemma scan_flatten :
    ∀ (svcs : List (String × Service)) (used : List (String × String)),
      scanServices used svcs = portScan used (enabledBindings svcs) := by
  intro svcs
  induction svcs with
  | nil => intro used; rfl
  | cons hd rest ih =>
    obtain ⟨n, sc⟩ := hd
    intro used
    by_cases hen : sc.enabled.getD false
    · have := scanPorts_flatten n rest ih sc.ports used
      simp only [scanServices, if_pos hen, enabledBindings, List.flatMap_cons, hen,
        if_true] at this ⊢
      exact this
    · simp only [scanServices, if_neg hen, enabledBindings, List.flatMap_cons, hen,
        if_false, List.nil_append]
      exact ih used

lemma portScan_none_iff :
    ∀ (bs : List (String × PortMapping)) (used : List (String × String)),
      portScan used bs = none ↔
        ((bs.map (fun x => bindKey x.2)).Nodup
          ∧ ∀ x ∈ bs, used.lookup (bindKey x.2) = none) := by
  intro bs
  induction bs with
  | nil => intro used; simp [portScan]
  | cons hd rest ih =>
    obtain ⟨n, p⟩ := hd
    intro used
    simp only [portScan]
    cases h : used.lookup (bindKey p) with
    | some owner =>
      simp only [List.map_cons, List.nodup_cons]
      constructor
      · intro hfalse; cases hfalse
      · rintro ⟨-, hall⟩
        have := hall (n, p) (List.mem_cons_self _ _)
        simp only at this
        rw [this] at h
        cases h
    | none =>
      rw [ih ((bindKey p, n) :: used)]
      simp only [List.map_cons, List.nodup_cons, List.mem_cons]
      constructor
      · rintro ⟨hnd, hall⟩
        refine ⟨⟨?_, hnd⟩, ?_⟩
        · intro hmem
          rcases List.mem_map.mp hmem with ⟨x, hx, hkey⟩
          have := hall x hx
          rw [List.lookup_cons] at this
          rw [hkey] at this
          simp at this
        · rintro x (rfl | hx)
          · simpa using h
          · have := hall x hx
            rw [List.lookup_cons] at this
            split at this
            · cases this
            · exact this
      · rintro ⟨⟨hnotmem, hnd⟩, hall⟩
        refine ⟨hnd, ?_⟩
        intro x hx
        rw [List.lookup_cons]
        have hne : (bindKey x.2 == bindKey p) = false := by
          rw [beq_eq_false_iff_ne]
          intro hkey
          exact hnotmem (hkey ▸ List.mem_map.mpr ⟨x, hx, rfl⟩)
        rw [hne]
        exact hall x (Or.inr hx)

lemma portScan_sound :
    ∀ (bs : List (String × PortMapping)) (used : List (String × String))
      (a b k : String), portScan used bs = some (a, b, k) →
      ∃ l₁ y l₂, bs = l₁ ++ y :: l₂
        ∧ (y : String × PortMapping).1 = b ∧ bindKey y.2 = k
        ∧ (used.lookup k = some a
           ∨ ∃ l₁a x l₁b, l₁ = l₁a ++ x :: l₁b
               ∧ (x : String × PortMapping).1 = a ∧ bindKey x.2 = k) := by
  intro bs
  induction bs with
  | nil => intro used a b k h; cases h
  | cons hd rest ih =>
    obtain ⟨n, p⟩ := hd
    intro used a b k h
    simp only [portScan] at h
    cases hl : used.lookup (bindKey p) with
    | some owner =>
      rw [hl] at h
      simp only [Option.some.injEq, Prod.mk.injEq] at h
      obtain ⟨ha, hb, hk⟩ := h
      refine ⟨[], (n, p), rest, by simp, hb, hk, Or.inl ?_⟩
      rw [← hk, hl, ha]
    | none =>
      rw [hl] at h
      obtain ⟨l₁, y, l₂, hdecomp, hyb, hyk, hrest⟩ :=
        ih ((bindKey p, n) :: used) a b k h
      rcases hrest with hlook | ⟨l₁a, x, l₁b, hl₁, hxa, hxk⟩
      · rw [List.lookup_cons] at hlook
        by_cases hkeq : k = bindKey p
        · subst hkeq
          simp only [beq_self_eq_true] at hlook
          have hna : n = a := by simpa using hlook
          exact ⟨(n, p) :: l₁, y, l₂, by simp [hdecomp], hyb, hyk,
            Or.inr ⟨[], (n, p), l₁, by simp, hna, rfl⟩⟩
        · have : (k == bindKey p) = false := beq_eq_false_iff_ne.mpr hkeq
          rw [this] at hlook
          exact ⟨(n, p) :: l₁, y, l₂, by simp [hdecomp], hyb, hyk, Or.inl hlook⟩
      · exact ⟨(n, p) :: l₁, y, l₂, by simp [hdecomp, hl₁], hyb, hyk,
          Or.inr ⟨(n, p) :: l₁a, x, l₁b, by simp [hl₁], hxa, hxk⟩⟩

lemma not_nodup_iff_decomp {α β : Type} [DecidableEq β] (f : α → β) :
    ∀ (l : List α),
      ¬ (l.map f).Nodup ↔
        ∃ l₁ x l₂ y l₃, l = l₁ ++ x :: (l₂ ++ y :: l₃) ∧ f x = f y := by
  intro l
  induction l with
  | nil =>
    simp only [List.map_nil, List.nodup_nil, not_true_eq_false, false_iff]
    rintro ⟨l₁, x, l₂, y, l₃, h, -⟩
    simp at h
  | cons a t ih =>
    simp only [List.map_cons, List.nodup_cons]
    constructor
    · intro h
      rw [not_and_or] at h
      rcases h with h | h
      · rw [not_not] at h
        rcases List.mem_map.mp h with ⟨y, hy, hfy⟩
        obtain ⟨t₁, t₂, rfl⟩ := List.append_of_mem hy
        exact ⟨[], a, t₁, y, t₂, by simp, hfy.symm⟩
      · obtain ⟨l₁, x, l₂, y, l₃, hdec, hf⟩ := ih.mp h
        exact ⟨a :: l₁, x, l₂, y, l₃, by simp [hdec], hf⟩
    · rintro ⟨l₁, x, l₂, y, l₃, hdec, hf⟩
      cases l₁ with
      | nil =>
        simp only [List.nil_append, List.cons.injEq] at hdec
        obtain ⟨rfl, rfl⟩ := hdec
        intro hcon
        exact hcon.1 (hf ▸ List.mem_map.mpr
          ⟨y, List.mem_append_right _ (List.mem_cons_self _ _), rfl⟩)
      | cons a' l₁' =>
        simp only [List.cons_append, List.cons.injEq] at hdec
        obtain ⟨rfl, rfl⟩ := hdec
        intro hcon
        exact (ih.mpr ⟨l₁', x, l₂, y, l₃, rfl, hf⟩) hcon.2

lemma validate_config_scan (cfg : ConfigFile) (svcs : List (String × Service))
    (hg : cfg.global?.isSome) (hs : cfg.services? = some svcs)
    (hp : cfg.profiles?.isSome) :
    validate_config cfg =
      (match portScan [] (enabledBindings svcs) with
        | some (a, b, k) => .portConflict a b k
        | none => .ok) := by
  obtain ⟨g, hgeq⟩ := Option.isSome_iff_exists.mp hg
  obtain ⟨ps, hpeq⟩ := Option.isSome_iff_exists.mp hp
  simp only [validate_config, hgeq, hs, hpeq, Option.isNone_some, Bool.false_eq_true,
    if_false, scan_flatten]

lemma validate_conflict_exists_iff (cfg : ConfigFile) (svcs : List (String × Service))
    (hg : cfg.global?.isSome) (hs : cfg.services? = some svcs)
    (hp : cfg.profiles?.isSome) :
    (∃ a b k, validate_config cfg = .portConflict a b k) ↔ HasPortConflict svcs := by
  rw [validate_config_scan cfg svcs hg hs hp]
  constructor
  · rintro ⟨a, b, k, h⟩
    cases hscan : portScan [] (enabledBindings svcs) with
    | none => rw [hscan] at h; cases h
    | some c =>
      obtain ⟨a', b', k'⟩ := c
      obtain ⟨l₁, y, l₂, hdec, -, hyk, hrest⟩ :=
        portScan_sound (enabledBindings svcs) [] a' b' k' hscan
      rcases hrest with hlook | ⟨l₁a, x, l₁b, hl₁, -, hxk⟩
      · simp at hlook
      · refine ⟨l₁a, x, l₁b, y, l₂, by rw [hdec, hl₁]; simp, ?_, ?_⟩
        · exact (bindKey_inj.mp (hxk.trans hyk.symm)).1
        · exact (bindKey_inj.mp (hxk.trans hyk.symm)).2
  · intro hconf
    obtain ⟨l₁, x, l₂, y, l₃, hdec, hip, hport⟩ := hconf
    have hkey : bindKey x.2 = bindKey y.2 := bindKey_inj.mpr ⟨hip, hport⟩
    have hnotnodup : ¬ ((enabledBindings svcs).map (fun z => bindKey z.2)).Nodup :=
      (not_nodup_iff_decomp _ _).mpr ⟨l₁, x, l₂, y, l₃, hdec, hkey⟩
    cases hscan : portScan [] (enabledBindings svcs) with
    | none =>
      exfalso
      exact hnotnodup ((portScan_none_iff _ _).mp hscan).1
    | some c =>
      obtain ⟨a, b, k⟩ := c
      exact ⟨a, b, k, by simp⟩

lemma validate_conflict_names (cfg : ConfigFile) (svcs : List (String × Service))
    (hg : cfg.global?.isSome) (hs : cfg.services? = some svcs)
    (hp : cfg.profiles?.isSome) (a b k : String)
    (hres : validate_config cfg = .portConflict a b k) :
    ∃ l₁ x l₂ y l₃, enabledBindings svcs = l₁ ++ x :: (l₂ ++ y :: l₃)
      ∧ (x : String × PortMapping).1 = a ∧ (y : String × PortMapping).1 = b
      ∧ bindKey x.2 = k
      ∧ x.2.host_ip = y.2.host_ip ∧ x.2.host_port = y.2.host_port := by
  rw [validate_config_scan cfg svcs hg hs hp] at hres
  cases hscan : portScan [] (enabledBindings svcs) with
  | none => rw [hscan] at hres; cases hres
  | some c =>
    obtain ⟨a', b', k'⟩ := c
    rw [hscan] at hres
    simp only [ValidationResult.portConflict.injEq] at hres
    obtain ⟨rfl, rfl, rfl⟩ := hres
    obtain ⟨l₁, y, l₂, hdec, hyb, hyk, hrest⟩ :=
      portScan_sound (enabledBindings svcs) [] a' b' k' hscan
    rcases hrest with hlook | ⟨l₁a, x, l₁b, hl₁, hxa, hxk⟩
    · simp at hlook
    · have hkeys : bindKey x.2 = bindKey y.2 := hxk.trans hyk.symm
      exact ⟨l₁a, x, l₁b, y, l₂, by rw [hdec, hl₁]; simp, hxa, hyb, hxk,
        (bindKey_inj.mp hkeys).1, (bindKey_inj.mp hkeys).2⟩

/-! ## Claim C1 -/

/-- **C1.**  For every registry (with the three required sections
present, per the data model), validation fails with a port-conflict
error if and only if two enabled-service port entries (two distinct
positions in the flattened enabled-binding stream, so disabled
services are excluded) declare the same `(host_ip, host_port)` pair;
and any reported conflict names the two owning services and the exact
`host_ip:host_port` key of the shared pair. -/
theorem C1_validate_port_conflict_iff (cfg : ConfigFile)
    (svcs : List (String × Service)) (hg : cfg.global?.isSome)
    (hs : cfg.services? = some svcs) (hp : cfg.profiles?.isSome) :
    ((∃ a b k, validate_config cfg = .portConflict a b k) ↔ HasPortConflict svcs)
    ∧ (∀ a b k, validate_config cfg = .portConflict a b k →
        ∃ l₁ x l₂ y l₃, enabledBindings svcs = l₁ ++ x :: (l₂ ++ y :: l₃)
          ∧ (x : String × PortMapping).1 = a ∧ (y : String × PortMapping).1 = b
          ∧ bindKey x.2 = k
          ∧ x.2.host_ip = y.2.host_ip ∧ x.2.host_port = y.2.host_port) :=
  ⟨validate_conflict_exists_iff cfg svcs hg hs hp,
   fun a b k hres => validate_conflict_names cfg svcs hg hs hp a b k hres⟩

/-- Witness for C1, at the spec's own example: the registry with
enabled `a` (`127.0.0.1:8000→80`) and `b` (`127.0.0.1:8000→81`) fails
validation naming `a`, `b` and `127.0.0.1:8000`, and instantiates the
general theorem. -/
theorem C1_witness :
    validate_config cfgC1 = .portConflict "a" "b" "127.0.0.1:8000"
    ∧ ((∃ a b k, validate_config cfgC1 = .portConflict a b k) ↔
        HasPortConflict svcsC1) :=
  ⟨by decide, (C1_validate_port_conflict_iff cfgC1 svcsC1 (by decide) rfl (by decide)).1⟩

/-! ## Claim C8 -/

lemma enabledBindings_name (svcs : List (String × Service)) :
    ∀ z ∈ enabledBindings svcs,
      ∃ sc, ((z : String × PortMapping).1, sc) ∈ svcs
        ∧ sc.enabled.getD false = true ∧ z.2 ∈ sc.ports := by
  intro z hz
  rw [enabledBindings, List.mem_flatMap] at hz
  obtain ⟨w, hw, hzw⟩ := hz
  by_cases hen : w.2.enabled.getD false
  · rw [if_pos hen] at hzw
    rcases List.mem_map.mp hzw with ⟨p, hp, rfl⟩
    exact ⟨w.2, by simpa using hw, hen, hp⟩
  · rw [if_neg hen] at hzw
    cases hzw

lemma hasConflict_of_service_dup (svcs : List (String × Service))
    (n : String) (sc : Service) (hmem : (n, sc) ∈ svcs)
    (hen : sc.enabled.getD false = true)
    (t₁ : List PortMapping) (p : PortMapping) (t₂ : List PortMapping)
    (q : PortMapping) (t₃ : List PortMapping)
    (hports : sc.ports = t₁ ++ p :: (t₂ ++ q :: t₃))
    (hip : p.host_ip = q.host_ip) (hport : p.host_port = q.host_port) :
    HasPortConflict svcs := by
  obtain ⟨s₁, s₂, rfl⟩ := List.append_of_mem hmem
  refine ⟨enabledBindings s₁ ++ t₁.map (fun r => (n, r)), (n, p),
    t₂.map (fun r => (n, r)), (n, q),
    t₃.map (fun r => (n, r)) ++ enabledBindings s₂, ?_, hip, hport⟩
  simp only [enabledBindings, List.flatMap_append, List.flatMap_cons, hen, if_true,
    hports, List.map_append, List.map_cons]
  simp [List.append_assoc]

/-- **C8.**  A port conflict is reported even when both colliding
bindings belong to the same single enabled service: any registry (with
the required sections) containing an enabled service whose own port
list carries the same `(host_ip, host_port)` at two positions fails
validation; and when that service is the only enabled one, the
diagnostic names it as both owners. -/
theorem C8_same_service_conflict (cfg : ConfigFile)
    (svcs : List (String × Service)) (hg : cfg.global?.isSome)
    (hs : cfg.services? = some svcs) (hp : cfg.profiles?.isSome)
    (n : String) (sc : Service) (hmem : (n, sc) ∈ svcs)
    (hen : sc.enabled.getD false = true)
    (hdup : ∃ t₁ p t₂ q t₃, sc.ports = t₁ ++ p :: (t₂ ++ q :: t₃)
      ∧ (p : PortMapping).host_ip = (q : PortMapping).host_ip
      ∧ p.host_port = q.host_port) :
    (∃ a b k, validate_config cfg = .portConflict a b k)
    ∧ ((∀ z ∈ svcs, (z : String × Service).2.enabled.getD false = true → z.1 = n) →
        ∀ a b k, validate_config cfg = .portConflict a b k → a = n ∧ b = n) := by
  obtain ⟨t₁, p, t₂, q, t₃, hports, hip, hport⟩ := hdup
  have hconf : HasPortConflict svcs :=
    hasConflict_of_service_dup svcs n sc hmem hen t₁ p t₂ q t₃ hports hip hport
  refine ⟨(validate_conflict_exists_iff cfg svcs hg hs hp).mpr hconf, ?_⟩
  intro honly a b k hres
  obtain ⟨l₁, x, l₂, y, l₃, hdec, hxa, hyb, -, -, -⟩ :=
    validate_conflict_names cfg svcs hg hs hp a b k hres
  have hx : x ∈ enabledBindings svcs := by
    rw [hdec]
    exact List.mem_append_right _ (List.mem_cons_self _ _)
  have hy : y ∈ enabledBindings svcs := by
    rw [hdec]
    refine List.mem_append_right _ (List.mem_cons_of_mem _ ?_)
    exact List.mem_append_right _ (List.mem_cons_self _ _)
  obtain ⟨scx, hxmem, hxen, -⟩ := enabledBindings_name svcs x hx
  obtain ⟨scy, hymem, hyen, -⟩ := enabledBindings_name svcs y hy
  have ha : x.1 = n := honly (x.1, scx) hxmem hxen
  have hb : y.1 = n := honly (y.1, scy) hymem hyen
  rw [← hxa, ← hyb]
  exact ⟨ha, hb⟩

/-- Witness for C8: the single enabled service `x` declaring
`0.0.0.0:80` twice makes validation fail naming `x` as both owners. -/
theorem C8_witness :
    (∃ a b k, validate_config cfgC8 = .portConflict a b k)
    ∧ validate_config cfgC8 = .portConflict "x" "x" "0.0.0.0:80" :=
  ⟨(C8_same_service_conflict cfgC8 svcsC8 (by decide) rfl (by decide) "x"
      { enabled := some true, category := none, description := none,
        ports := [⟨"0.0.0.0", 80, 8080, none⟩, ⟨"0.0.0.0", 80, 9090, none⟩],
        profiles := [], reverse_proxy := none }
      (List.mem_cons_self _ _) rfl
      ⟨[], ⟨"0.0.0.0", 80, 8080, none⟩, [], ⟨"0.0.0.0", 80, 9090, none⟩, [],
        rfl, rfl, rfl⟩).1,
   by decide⟩

/-! ## Claims C6 and C3 -/

lemma get_enabled_services_some (cfg : ConfigFile) (svcs : List (String × Service))
    (profile : Option String) (hs : cfg.services? = some svcs) :
    get_enabled_services cfg profile = some (svcs.filterMap (fun z =>
      if z.2.enabled.getD false then
        match profile with
        | some p =>
          if p ≠ "" ∧ p ≠ "all" then
            if p ∈ z.2.profiles ∨ z.1 ∈ profile_included cfg p then some z.1
            else none
          else some z.1
        | none => some z.1
      else none)) := by
  rw [get_enabled_services, hs]
  rfl

lemma filterMap_guard {α β : Type} (p : α → Bool) (f : α → β) :
    ∀ l : List α,
      (l.filterMap (fun a => if p a then some (f a) else none)) = (l.filter p).map f := by
  intro l
  induction l with
  | nil => rfl
  | cons a t ih =>
    by_cases hp : p a
    · simp [List.filterMap_cons, List.filter_cons, hp, ih]
    · simp [List.filterMap_cons, List.filter_cons, hp, ih]

/-- **C6.**  Resolving the sentinel profile `"all"` returns exactly the
names of the services whose `enabled` flag is true (a missing flag
counting as false), in the insertion order of the service map,
regardless of any profile membership. -/
theorem C6_resolve_all (cfg : ConfigFile) (svcs : List (String × Service))
    (hs : cfg.services? = some svcs) :
    get_enabled_services cfg (some "all") =
      some ((svcs.filter (fun z => z.2.enabled.getD false)).map Prod.fst) := by
  rw [get_enabled_services_some cfg svcs (some "all") hs]
  have hbody : ∀ z : String × Service,
      (if z.2.enabled.getD false then
        (if ("all" : String) ≠ "" ∧ ("all" : String) ≠ "all" then
          if ("all" : String) ∈ z.2.profiles ∨ z.1 ∈ profile_included cfg "all" then
            some z.1 else none
          else some z.1)
        else none) =
      (if z.2.enabled.getD false then some z.1 else none) := by
    intro z
    have : ¬(("all" : String) ≠ "" ∧ ("all" : String) ≠ "all") := by simp
    rw [if_neg this]
  simp only [hbody]
  rw [filterMap_guard (fun z => z.2.enabled.getD false) Prod.fst svcs]

/-- Witness for C6: the five-service registry (three enabled, two
disabled, interleaved) resolves to exactly the three enabled names in
insertion order. -/
theorem C6_witness :
    get_enabled_services cfgC6 (some "all") = some ["e1", "e2", "e3"] :=
  (C6_resolve_all cfgC6 svcsC6 rfl).trans (by decide)

/-- **C3.**  For a profile name other than the sentinel (and non-empty,
i.e. truthy in the source), an enabled service is in the resolved list
iff it lists the profile in its own membership list OR the profile's
`included_services` names it — the union of the two signals. -/
theorem C3_profile_union (cfg : ConfigFile) (svcs : List (String × Service))
    (p nm : String) (hs : cfg.services? = some svcs) (hp1 : p ≠ "")
    (hp2 : p ≠ "all") :
    ∃ l, get_enabled_services cfg (some p) = some l
      ∧ (nm ∈ l ↔ ∃ sc, (nm, sc) ∈ svcs ∧ sc.enabled.getD false = true
          ∧ (p ∈ sc.profiles ∨ nm ∈ profile_included cfg p)) := by
  refine ⟨_, get_enabled_services_some cfg svcs (some p) hs, ?_⟩
  rw [List.mem_filterMap]
  constructor
  · rintro ⟨z, hz, hbody⟩
    simp only at hbody
    by_cases hen : z.2.enabled.getD false
    · rw [if_pos hen, if_pos ⟨hp1, hp2⟩] at hbody
      by_cases hcond : p ∈ z.2.profiles ∨ z.1 ∈ profile_included cfg p
      · rw [if_pos hcond] at hbody
        obtain rfl : z.1 = nm := by simpa using hbody
        exact ⟨z.2, by simpa using hz, hen, hcond⟩
      · rw [if_neg hcond] at hbody
        cases hbody
    · rw [if_neg hen] at hbody
      cases hbody
  · rintro ⟨sc, hmem, hen, hcond⟩
    refine ⟨(nm, sc), hmem, ?_⟩
    simp only
    rw [if_pos hen, if_pos ⟨hp1, hp2⟩, if_pos hcond]

/-- Witness for C3, on a registry exercising both signals separately:
`svc1` (self-declared member of `gpu`) and `svc2` (named only by
`gpu`'s `included_services`) both resolve, and the resolved list is
exactly `[svc1, svc2]`. -/
theorem C3_witness :
    (∃ l, get_enabled_services cfgC3 (some "gpu") = some l
      ∧ ("svc1" ∈ l ↔ ∃ sc, ("svc1", sc) ∈ svcsC3 ∧ sc.enabled.getD false = true
          ∧ ("gpu" ∈ sc.profiles ∨ "svc1" ∈ profile_included cfgC3 "gpu")))
    ∧ (∃ l, get_enabled_services cfgC3 (some "gpu") = some l
      ∧ ("svc2" ∈ l ↔ ∃ sc, ("svc2", sc) ∈ svcsC3 ∧ sc.enabled.getD false = true
          ∧ ("gpu" ∈ sc.profiles ∨ "svc2" ∈ profile_included cfgC3 "gpu")))
    ∧ get_enabled_services cfgC3 (some "gpu") = some ["svc1", "svc2"] :=
  ⟨C3_profile_union cfgC3 svcsC3 "gpu" "svc1" rfl (by decide) (by decide),
   C3_profile_union cfgC3 svcsC3 "gpu" "svc2" rfl (by decide) (by decide),
   by decide⟩

/-! ## Claim C2 -/

lemma generate_override_file_some (cfg : ConfigFile)
    (svcMap : List (String × Service)) (services : List String)
    (environment : String) (hs : cfg.services? = some svcMap) :
    generate_override_file cfg services environment =
      some (services.filterMap (fun service_name =>
        let sc := (svcMap.lookup service_name).getD emptyService
        if sc.ports = [] then none
        else
          let port_mappings := sc.ports.filterMap
            (format_port_mapping service_name environment)
          if port_mappings = [] then none
          else some (service_name, port_mappings))) := by
  rw [generate_override_file, hs]
  rfl

/-- Counterexample to C2 as stated: on the spec's own example registry
(`web` enabled, reverse-proxied, with the wildcard binding
`0.0.0.0:443→8443`, resolved for `public`), the overlay is *empty* —
`web` does not receive the entry `443:8443/tcp`, because the public
path only ever emits for the service literally named `caddy`. -/
theorem C2_counterexample :
    generate_override_file cfgC2 ["web", "admin"] "public" = some []
    ∧ ∀ ms, ("web", ms) ∉ ([] : List (String × List String)) :=
  ⟨by decide, by simp⟩

/-- **C2 (amended).**  In the public overlay every emitted entry
belongs to the service literally named `caddy` (the hard-coded ingress
point), is non-empty, and each of its binding strings comes from a
`0.0.0.0` port of `caddy`, formatted `hostPort:containerPort/protocol`
without a host-address prefix; every other service and every
non-wildcard binding is suppressed. -/
theorem C2_public_overlay_caddy_only (cfg : ConfigFile)
    (svcMap : List (String × Service)) (services : List String)
    (hs : cfg.services? = some svcMap) :
    ∃ entries, generate_override_file cfg services "public" = some entries
      ∧ ∀ nm ms, (nm, ms) ∈ entries → nm = "caddy" ∧ ms ≠ []
          ∧ ∀ m ∈ ms, ∃ p ∈ ((svcMap.lookup nm).getD emptyService).ports,
              p.host_ip = "0.0.0.0"
              ∧ m = toString p.host_port ++ ":" ++ toString p.container_port
                  ++ "/" ++ p.protocol.getD "tcp" := by
  refine ⟨_, generate_override_file_some cfg svcMap services "public" hs, ?_⟩
  intro nm ms hmem
  rcases List.mem_filterMap.mp hmem with ⟨name, hname, hbody⟩
  simp only at hbody
  by_cases hport0 : ((svcMap.lookup name).getD emptyService).ports = []
  · rw [if_pos hport0] at hbody
    cases hbody
  · rw [if_neg hport0] at hbody
    by_cases hpm : ((svcMap.lookup name).getD emptyService).ports.filterMap
        (format_port_mapping name "public") = []
    · rw [if_pos hpm] at hbody
      cases hbody
    · rw [if_neg hpm] at hbody
      simp only [Option.some.injEq, Prod.mk.injEq] at hbody
      obtain ⟨rfl, rfl⟩ := hbody
      have hcaddy : name = "caddy" := by
        obtain ⟨m, hm⟩ := List.exists_mem_of_ne_nil _ hpm
        rcases List.mem_filterMap.mp hm with ⟨p, -, hfmt⟩
        rw [format_port_mapping] at hfmt
        rw [if_neg (by decide : ¬("public" : String) = "private")] at hfmt
        by_cases hc : name ∈ ["caddy"]
        · simpa using hc
        · rw [if_neg hc] at hfmt
          cases hfmt
      refine ⟨hcaddy, hpm, ?_⟩
      intro m hm
      rcases List.mem_filterMap.mp hm with ⟨p, hp, hfmt⟩
      rw [format_port_mapping] at hfmt
      rw [if_neg (by decide : ¬("public" : String) = "private")] at hfmt
      by_cases hc : name ∈ ["caddy"]
      · rw [if_pos hc] at hfmt
        by_cases hwild : p.host_ip = "0.0.0.0"
        · rw [if_pos hwild] at hfmt
          exact ⟨p, hp, hwild, (Option.some.inj hfmt).symm⟩
        · rw [if_neg hwild] at hfmt
          cases hfmt
      · rw [if_neg hc] at hfmt
        cases hfmt

/-- Witness for C2 (amended): the service actually named `caddy` with
the same wildcard binding yields exactly the prefixless entry
`443:8443/tcp`, and instantiates the general theorem. -/
theorem C2_witness :
    (∃ entries, generate_override_file cfgC2caddy ["caddy"] "public" = some entries
      ∧ ∀ nm ms, (nm, ms) ∈ entries → nm = "caddy" ∧ ms ≠ []
          ∧ ∀ m ∈ ms, ∃ p ∈ ((svcsC2caddy.lookup nm).getD emptyService).ports,
              p.host_ip = "0.0.0.0"
              ∧ m = toString p.host_port ++ ":" ++ toString p.container_port
                  ++ "/" ++ p.protocol.getD "tcp")
    ∧ generate_override_file cfgC2caddy ["caddy"] "public" =
        some [("caddy", ["443:8443/tcp"])] :=
  ⟨C2_public_overlay_caddy_only cfgC2caddy svcsC2caddy ["caddy"] rfl, by decide⟩

/-! ## Claim C7 -/

lemma generate_caddyfile_some (cfg : ConfigFile)
    (svcMap : List (String × Service)) (services : List String)
    (hs : cfg.services? = some svcMap) :
    generate_caddyfile cfg services =
      some (["\x7b\n    email \x7b$LETSENCRYPT_EMAIL\x7d\n\x7d", ""]
        ++ services.flatMap (caddy_service_block svcMap)
        ++ ["import /etc/caddy/addons/*.conf", ""]) := by
  rw [generate_caddyfile, hs]
  rfl

lemma caddy_service_block_eq (svcMap : List (String × Service)) (nm : String)
    (sc : Service) (p : PortMapping) (ps : List PortMapping)
    (hsc : svcMap.lookup nm = some sc) (hrp : sc.reverse_proxy.getD false = true)
    (hports : sc.ports = p :: ps) :
    caddy_service_block svcMap nm =
      ["# " ++ sc.description.getD nm,
       "\x7b" ++ get_hostname_variable nm ++ "\x7d \x7b",
       "    reverse_proxy " ++ nm ++ ":" ++ toString p.container_port,
       "\x7d",
       ""] := by
  rw [caddy_service_block, hsc]
  simp only [Option.getD_some, hrp, if_true, hports]

/-- **C7.**  For each resolved service flagged `reverse_proxy` that
declares at least one port, the generated routing document contains a
block keyed by that service's hostname placeholder token (static table
or uppercased/underscored fallback with the `_HOSTNAME` marker, both
embodied in `get_hostname_variable`), whose body proxies to
`serviceName:containerPort` of the first declared port, preceded by the
service's description as a comment line. -/
theorem C7_caddyfile_blocks (cfg : ConfigFile)
    (svcMap : List (String × Service)) (services : List String) (nm : String)
    (sc : Service) (p : PortMapping) (ps : List PortMapping)
    (hs : cfg.services? = some svcMap) (hmem : nm ∈ services)
    (hsc : svcMap.lookup nm = some sc) (hrp : sc.reverse_proxy.getD false = true)
    (hports : sc.ports = p :: ps) :
    ∃ lines l₁ l₂, generate_caddyfile cfg services = some lines
      ∧ lines = l₁
          ++ ["# " ++ sc.description.getD nm,
              "\x7b" ++ get_hostname_variable nm ++ "\x7d \x7b",
              "    reverse_proxy " ++ nm ++ ":" ++ toString p.container_port,
              "\x7d"]
          ++ l₂ := by
  obtain ⟨s₁, s₂, rfl⟩ := List.append_of_mem hmem
  refine ⟨_, ["\x7b\n    email \x7b$LETSENCRYPT_EMAIL\x7d\n\x7d", ""]
      ++ s₁.flatMap (caddy_service_block svcMap),
    "" :: (s₂.flatMap (caddy_service_block svcMap)
      ++ ["import /etc/caddy/addons/*.conf", ""]),
    generate_caddyfile_some cfg svcMap (s₁ ++ nm :: s₂) hs, ?_⟩
  rw [List.flatMap_append, List.flatMap_cons,
    caddy_service_block_eq svcMap nm sc p ps hsc hrp hports]
  simp [List.append_assoc]

/-- Witness for C7: the reverse-proxied `n8n` service yields its
comment, its `$N8N_HOSTNAME` block and the proxy line to `n8n:5678`;
the exact document is also computed. -/
theorem C7_witness :
    (∃ lines l₁ l₂, generate_caddyfile cfgC7 ["n8n"] = some lines
      ∧ lines = l₁
          ++ ["# Workflow automation",
              "\x7b$N8N_HOSTNAME\x7d \x7b",
              "    reverse_proxy n8n:5678",
              "\x7d"]
          ++ l₂)
    ∧ generate_caddyfile cfgC7 ["n8n"] =
        some ["\x7b\n    email \x7b$LETSENCRYPT_EMAIL\x7d\n\x7d", "",
          "# Workflow automation",
          "\x7b$N8N_HOSTNAME\x7d \x7b",
          "    reverse_proxy n8n:5678",
          "\x7d", "",
          "import /etc/caddy/addons/*.conf", ""] :=
  ⟨C7_caddyfile_blocks cfgC7 svcsC7 ["n8n"] "n8n"
      { enabled := some true, category := none,
        description := some "Workflow automation",
        ports := [⟨"127.0.0.1", 5678, 5678, none⟩], profiles := [],
        reverse_proxy := some true }
      ⟨"127.0.0.1", 5678, 5678, none⟩ []
      rfl (List.mem_cons_self _ _) rfl rfl rfl,
   by decide⟩

/-! ## Claim C4 -/

lemma repF_of_not_contains (t v : List Char) :
    ∀ (s : List Char) (fuel : Nat), containsSub t s = false → repF t v fuel s = s := by
  intro s
  induction s with
  | nil => intro fuel h; cases fuel <;> rfl
  | cons c rest ih =>
    intro fuel h
    rw [containsSub, Bool.or_eq_false_iff] at h
    cases fuel with
    | zero => rfl
    | succ fuel =>
      rw [repF, if_neg (by simp [h.1]), ih fuel h.2]

lemma string_mk_data (s : String) : String.mk s.data = s := rfl

lemma substRecursive_of_no_token (v : String) :
    ∀ j : JValue, jHasToken j = false → substRecursive v j = j := by
  intro j
  induction j with
  | str s =>
    intro h
    rw [jHasToken] at h
    rw [substRecursive, pyReplace, repF_of_not_contains _ _ _ _ h, string_mk_data]
  | num n => intro h; rfl
  | bool b => intro h; rfl
  | null => intro h; rfl
  | arrNil => intro h; rfl
  | arrCons hd tl ih₁ ih₂ =>
    intro h
    rw [jHasToken, Bool.or_eq_false_iff] at h
    rw [substRecursive, ih₁ h.1, ih₂ h.2]
  | objNil => intro h; rfl
  | objCons k x tl ih₁ ih₂ =>
    intro h
    rw [jHasToken, Bool.or_eq_false_iff] at h
    rw [substRecursive, ih₁ h.1, ih₂ h.2]

/-- Counterexample to C4 as stated: in `jC4` the resolved default host
address (`ip}`) does not contain the placeholder token, yet one
substitution pass turns the crafted field into the token itself, so the
second pass changes the registry again — substitution is not
idempotent under the claim's hypothesis. -/
theorem C4_counterexample :
    containsSub placeholderToken.data (default_host_ip jC4).data = false
    ∧ substitute_variables (substitute_variables jC4) ≠ substitute_variables jC4 :=
  ⟨by decide, by decide⟩

/-- **C4 (amended).**  The substitution pass is idempotent for every
registry whose once-substituted form contains no occurrence of the
placeholder token in any string (in particular this strengthens the
original hypothesis, which only constrained the resolved default value
itself and is not sufficient). -/
theorem C4_substitution_idempotent (config : JValue)
    (h : jHasToken (substitute_variables config) = false) :
    substitute_variables (substitute_variables config) =
      substitute_variables config := by
  rw [substitute_variables]
  exact substRecursive_of_no_token _ _ h

/-- Witness for C4 (amended): an ordinary registry (default
`127.0.0.1`, one templated field) whose substituted form is token-free,
hence idempotent. -/
theorem C4_witness :
    jHasToken (substitute_variables jC4good) = false
    ∧ substitute_variables (substitute_variables jC4good) =
        substitute_variables jC4good :=
  ⟨by decide, C4_substitution_idempotent jC4good (by decide)⟩

/-! ## Claim C9 -/

lemma check_port_conflict_some (cfg : ConfigFile)
    (svcs : List (String × Service)) (cur ip : String) (port : Int)
    (hs : cfg.services? = some svcs) :
    check_port_conflict cfg cur ip port =
      some (port_conflict_scan svcs cur ip port) := by
  rw [check_port_conflict, hs]
  rfl

/-- **C9.**  The interactive conflict check ignores the service being
edited and all disabled services: it reports `true` iff some *other*,
*enabled* service declares exactly `(ip, port)`.  Consequently the
single-port edit accepts a host port that duplicates a binding of a
disabled service or another binding of the same service: on `cfgC9`
(editing `x`, whose own second binding and the disabled `y` both hold
`127.0.0.1:9999`) the check reports no conflict and the edit to port
`9999` is applied. -/
theorem C9_conflict_check_iff (cfg : ConfigFile)
    (svcs : List (String × Service)) (cur ip : String) (port : Int)
    (hs : cfg.services? = some svcs) :
    (check_port_conflict cfg cur ip port = some true ↔
      ∃ z ∈ svcs, (z : String × Service).1 ≠ cur
        ∧ z.2.enabled.getD false = true
        ∧ ∃ p ∈ z.2.ports, p.host_ip = ip ∧ p.host_port = port)
    ∧ check_port_conflict cfgC9 "x" "127.0.0.1" 9999 = some false
    ∧ edit_single_port cfgC9 "x" 0 "" "9999" = some
        { global? := some ⟨none, none⟩,
          services? := some
            [("x", { enabled := some true, category := none, description := none,
                     ports := [⟨"127.0.0.1", 9999, 80, none⟩,
                               ⟨"127.0.0.1", 9999, 81, none⟩],
                     profiles := [], reverse_proxy := none }),
             ("y", { enabled := some false, category := none, description := none,
                     ports := [⟨"127.0.0.1", 9999, 90, none⟩], profiles := [],
                     reverse_proxy := none })],
          profiles? := some [] } := by
  refine ⟨?_, by decide, by decide⟩
  rw [check_port_conflict_some cfg svcs cur ip port hs]
  rw [Option.some_inj]
  rw [port_conflict_scan, List.any_eq_true]
  constructor
  · rintro ⟨z, hz, hbody⟩
    by_cases hskip : z.1 = cur ∨ ¬(z.2.enabled.getD false)
    · rw [if_pos hskip] at hbody
      cases hbody
    · rw [if_neg hskip] at hbody
      rw [not_or, not_not] at hskip
      rcases List.any_eq_true.mp hbody with ⟨p, hp, hpb⟩
      rw [Bool.and_eq_true, beq_iff_eq, beq_iff_eq] at hpb
      exact ⟨z, hz, hskip.1, hskip.2, p, hp, hpb.1, hpb.2⟩
  · rintro ⟨z, hz, hne, hen, p, hp, hip, hport⟩
    refine ⟨z, hz, ?_⟩
    rw [if_neg (by rw [not_or, not_not]; exact ⟨hne, hen⟩)]
    rw [List.any_eq_true]
    exact ⟨p, hp, by rw [Bool.and_eq_true, beq_iff_eq, beq_iff_eq]; exact ⟨hip, hport⟩⟩

/-- Witness for C9: the iff instantiated on `cfgC9`'s service list at
the probe `("x", 127.0.0.1, 9999)`. -/
theorem C9_witness :
    (check_port_conflict cfgC9 "x" "127.0.0.1" 9999 = some true ↔
      ∃ z ∈ svcsC9, (z : String × Service).1 ≠ "x"
        ∧ z.2.enabled.getD false = true
        ∧ ∃ p ∈ z.2.ports, p.host_ip = "127.0.0.1" ∧ p.host_port = 9999)
    ∧ check_port_conflict cfgC9 "x" "127.0.0.1" 9999 = some false :=
  ⟨(C9_conflict_check_iff cfgC9 svcsC9 "x" "127.0.0.1" 9999 rfl).1, by decide⟩

/-! ## Claim C10 -/

lemma toggle_service_not_found (cfg : ConfigFile)
    (svcs : List (String × Service)) (name : String)
    (hs : cfg.services? = some svcs) (hl : svcs.lookup name = none) :
    toggle_service cfg name = some cfg := by
  rw [toggle_service, hs]
  simp only [Option.bind_eq_bind, Option.some_bind]
  rw [hl]
  rfl

lemma toggle_service_found (cfg : ConfigFile)
    (svcs : List (String × Service)) (name : String) (sc : Service)
    (hs : cfg.services? = some svcs) (hl : svcs.lookup name = some sc) :
    toggle_service cfg name =
      some { cfg with
        services? := some (set_enabled name (!(sc.enabled.getD false)) svcs) } := by
  rw [toggle_service, hs]
  simp only [Option.bind_eq_bind, Option.some_bind]
  rw [hl]
  rfl

lemma set_enabled_map_fst (name : String) (v : Bool) :
    ∀ svcs : List (String × Service),
      (set_enabled name v svcs).map Prod.fst = svcs.map Prod.fst := by
  intro svcs
  induction svcs with
  | nil => rfl
  | cons hd rest ih =>
    obtain ⟨m, sc⟩ := hd
    by_cases hm : m = name
    · rw [set_enabled, if_pos hm]
      simp
    · rw [set_enabled, if_neg hm]
      simp [ih]

lemma lookup_set_enabled_self (name : String) (v : Bool) :
    ∀ (svcs : List (String × Service)) (sc : Service),
      svcs.lookup name = some sc →
      (set_enabled name v svcs).lookup name = some { sc with enabled := some v } := by
  intro svcs
  induction svcs with
  | nil => intro sc h; cases h
  | cons hd rest ih =>
    obtain ⟨m, sc'⟩ := hd
    intro sc h
    by_cases hm : m = name
    · subst hm
      rw [List.lookup_cons] at h
      simp only [beq_self_eq_true] at h
      rw [set_enabled, if_pos rfl, List.lookup_cons]
      simp only [beq_self_eq_true]
      rw [Option.some_inj] at h
      rw [h]
    · have hne : (name == m) = false :=
        beq_eq_false_iff_ne.mpr (fun hh => hm hh.symm)
      simp only [List.lookup_cons, hne, Bool.false_eq_true, if_false] at h
      rw [set_enabled, if_neg hm]
      simp only [List.lookup_cons, hne, Bool.false_eq_true, if_false]
      exact ih sc h

lemma lookup_set_enabled_other (name : String) (v : Bool) (m : String)
    (hm : m ≠ name) :
    ∀ svcs : List (String × Service),
      (set_enabled name v svcs).lookup m = svcs.lookup m := by
  intro svcs
  induction svcs with
  | nil => rfl
  | cons hd rest ih =>
    obtain ⟨n, sc⟩ := hd
    by_cases hn : n = name
    · subst hn
      rw [set_enabled, if_pos rfl]
      have hne : (m == n) = false := beq_eq_false_iff_ne.mpr hm
      simp only [List.lookup_cons, hne, Bool.false_eq_true, if_false]
    · rw [set_enabled, if_neg hn]
      by_cases hmn : m = n
      · subst hmn
        simp only [List.lookup_cons, beq_self_eq_true]
      · have hne : (m == n) = false := beq_eq_false_iff_ne.mpr hmn
        simp only [List.lookup_cons, hne, Bool.false_eq_true, if_false]
        exact ih

lemma set_enabled_twice (name : String) (v w : Bool) :
    ∀ svcs : List (String × Service),
      set_enabled name v (set_enabled name w svcs) = set_enabled name v svcs := by
  intro svcs
  induction svcs with
  | nil => rfl
  | cons hd rest ih =>
    obtain ⟨n, sc⟩ := hd
    by_cases hn : n = name
    · rw [set_enabled, if_pos hn, set_enabled, if_pos hn, set_enabled, if_pos hn]
    · rw [set_enabled, if_neg hn, set_enabled, if_neg hn, set_enabled, if_neg hn, ih]

lemma set_enabled_self (name : String) (v : Bool) :
    ∀ (svcs : List (String × Service)) (sc : Service),
      svcs.lookup name = some sc → sc.enabled = some v →
      set_enabled name v svcs = svcs := by
  intro svcs
  induction svcs with
  | nil => intro sc h; cases h
  | cons hd rest ih =>
    obtain ⟨n, sc'⟩ := hd
    intro sc h hv
    by_cases hn : n = name
    · subst hn
      rw [List.lookup_cons] at h
      simp only [beq_self_eq_true] at h
      rw [Option.some_inj] at h
      subst h
      rw [set_enabled, if_pos rfl]
      have : { sc' with enabled := some v } = sc' := by
        cases sc'
        simp only at hv
        simp [hv]
      rw [this]
    · have hne : (name == n) = false :=
        beq_eq_false_iff_ne.mpr (fun hh => hn hh.symm)
      simp only [List.lookup_cons, hne, Bool.false_eq_true, if_false] at h
      rw [set_enabled, if_neg hn, ih sc h hv]

lemma config_update_self (cfg : ConfigFile) (svcs : List (String × Service))
    (hs : cfg.services? = some svcs) :
    ({ cfg with services? := some svcs } : ConfigFile) = cfg := by
  cases cfg
  simp only at hs
  simp [hs]

lemma toggle_toggle (cfg : ConfigFile) (svcs : List (String × Service))
    (name : String) (sc : Service) (hs : cfg.services? = some svcs)
    (hl : svcs.lookup name = some sc) :
    (toggle_service cfg name).bind (fun c => toggle_service c name) =
      some { cfg with
        services? := some (set_enabled name (sc.enabled.getD false) svcs) } := by
  rw [toggle_service_found cfg svcs name sc hs hl, Option.some_bind]
  rw [toggle_service_found _ (set_enabled name (!(sc.enabled.getD false)) svcs) name
    { sc with enabled := some (!(sc.enabled.getD false)) } rfl
    (lookup_set_enabled_self name _ svcs sc hl)]
  rw [set_enabled_twice]
  simp

/-- Counterexample to C10 as stated: toggling a service whose `enabled`
key is absent twice does *not* restore the registry — the flag becomes
an explicit `false` (observable, e.g. in the saved JSON). -/
theorem C10_counterexample :
    (toggle_service cfgC10 "x").bind (fun c => toggle_service c "x") ≠ some cfgC10
    ∧ (toggle_service cfgC10 "x").bind (fun c => toggle_service c "x") = some
        { global? := some ⟨none, none⟩,
          services? := some
            [("x", { enabled := some false, category := none, description := none,
                     ports := [], profiles := [], reverse_proxy := none })],
          profiles? := some [] } :=
  ⟨by decide, by decide⟩

/-- **C10 (amended).**  Toggling an existing service flips exactly that
service's `enabled` flag to the explicit negation of its current
missing-as-false value and changes nothing else (same name sequence,
all other lookups unchanged, all other fields of the service kept);
toggling a missing name leaves the registry unchanged; toggling twice
sets the flag to an explicit boolean equal to its effective prior
value, which restores the original registry exactly when the flag was
explicitly present before. -/
theorem C10_toggle_spec (cfg : ConfigFile) (svcs : List (String × Service))
    (name : String) (hs : cfg.services? = some svcs) :
    (svcs.lookup name = none → toggle_service cfg name = some cfg)
    ∧ ∀ sc, svcs.lookup name = some sc →
        (∃ svcs', toggle_service cfg name = some { cfg with services? := some svcs' }
          ∧ svcs'.map Prod.fst = svcs.map Prod.fst
          ∧ svcs'.lookup name =
              some { sc with enabled := some (!(sc.enabled.getD false)) }
          ∧ ∀ m, m ≠ name → svcs'.lookup m = svcs.lookup m)
        ∧ (toggle_service cfg name).bind (fun c => toggle_service c name) =
            some { cfg with
              services? := some (set_enabled name (sc.enabled.getD false) svcs) }
        ∧ (∀ b, sc.enabled = some b →
            (toggle_service cfg name).bind (fun c => toggle_service c name) =
              some cfg) := by
  refine ⟨fun hl => toggle_service_not_found cfg svcs name hs hl, fun sc hl => ?_⟩
  refine ⟨⟨set_enabled name (!(sc.enabled.getD false)) svcs,
    toggle_service_found cfg svcs name sc hs hl,
    set_enabled_map_fst name _ svcs,
    lookup_set_enabled_self name _ svcs sc hl,
    fun m hm => lookup_set_enabled_other name _ m hm svcs⟩,
    toggle_toggle cfg svcs name sc hs hl, ?_⟩
  intro b hb
  rw [toggle_toggle cfg svcs name sc hs hl]
  have hbd : sc.enabled.getD false = b := by rw [hb]; rfl
  rw [hbd, set_enabled_self name b svcs sc hl hb, config_update_self cfg svcs hs]

/-- Witness for C10 (amended): on `cfgC10b` (explicit flag), toggling
`x` twice restores the registry, and toggling a missing name is a
no-op; both by instantiating the theorem. -/
theorem C10_witness :
    ((toggle_service cfgC10b "x").bind (fun c => toggle_service c "x") = some cfgC10b)
    ∧ toggle_service cfgC10b "zzz" = some cfgC10b :=
  ⟨((C10_toggle_spec cfgC10b svcsC10b "x" rfl).2
      { enabled := some true, category := none, description := none,
        ports := [], profiles := [], reverse_proxy := none }
      rfl).2.2 true rfl,
   (C10_toggle_spec cfgC10b svcsC10b "zzz" rfl).1 rfl⟩

/-! ## Claim C5 -/

lemma list_set_self {α : Type} : ∀ (l : List α) (i : Nat) (x : α),
    l.get? i = some x → l.set i x = l := by
  intro l
  induction l with
  | nil => intro i x h; cases h
  | cons a t ih =>
    intro i x h
    cases i with
    | zero =>
      simp only [List.get?] at h
      rw [Option.some_inj] at h
      rw [h]
      rfl
    | succ i =>
      simp only [List.get?] at h
      rw [List.set]
      rw [ih i x h]

lemma edit_single_port_eq (cfg : ConfigFile) (svcs : List (String × Service))
    (service_name : String) (sc : Service) (pc : PortMapping) (port_index : Nat)
    (ip_input port_input : String) (hs : cfg.services? = some svcs)
    (hl : svcs.lookup service_name = some sc)
    (hidx : sc.ports.get? port_index = some pc) :
    edit_single_port cfg service_name port_index ip_input port_input =
      some { cfg with services? := some (setPortAt service_name port_index
        (apply_port_edit pc (apply_ip_edit pc ip_input)
          (setPortAt service_name port_index (apply_ip_edit pc ip_input) svcs)
          service_name port_input) svcs) } := by
  rw [edit_single_port, hs]
  simp only [Option.bind_eq_bind, Option.some_bind]
  rw [hl]
  simp only [Option.bind_eq_bind, Option.some_bind]
  rw [hidx]
  simp only [Option.bind_eq_bind, Option.some_bind]
  rfl

lemma apply_ip_edit_host_port (pc : PortMapping) (ip_input : String) :
    (apply_ip_edit pc ip_input).host_port = pc.host_port := by
  rw [apply_ip_edit]
  split <;> rfl

lemma apply_ip_edit_id (pc : PortMapping) (ip_input : String)
    (h : pyStrip ip_input = "" ∨ pyStrip ip_input = pc.host_ip) :
    apply_ip_edit pc ip_input = pc := by
  rw [apply_ip_edit]
  rcases h with h | h
  · rw [if_neg]
    rintro ⟨h1, -⟩
    exact h1 h
  · rw [if_neg]
    rintro ⟨-, h2⟩
    exact h2 h

lemma setPortAt_self (service_name : String) (port_index : Nat)
    (pc : PortMapping) :
    ∀ (svcs : List (String × Service)) (sc : Service),
      svcs.lookup service_name = some sc →
      sc.ports.get? port_index = some pc →
      setPortAt service_name port_index pc svcs = svcs := by
  intro svcs
  induction svcs with
  | nil => intro sc h; cases h
  | cons hd rest ih =>
    obtain ⟨n, sc'⟩ := hd
    intro sc h hidx
    by_cases hn : n = service_name
    · subst hn
      rw [List.lookup_cons] at h
      simp only [beq_self_eq_true] at h
      rw [Option.some_inj] at h
      subst h
      rw [setPortAt, if_pos rfl, list_set_self _ _ _ hidx]
    · have hne : (service_name == n) = false :=
        beq_eq_false_iff_ne.mpr (fun hh => hn hh.symm)
      simp only [List.lookup_cons, hne, Bool.false_eq_true, if_false] at h
      rw [setPortAt, if_neg hn, ih sc h hidx]

lemma apply_port_edit_rejected (pc pc1 : PortMapping)
    (svcs1 : List (String × Service)) (service_name port_input : String)
    (hbad : pyStrip port_input ≠ ""
      ∧ (int_of_string (pyStrip port_input) = none
         ∨ ∃ np, int_of_string (pyStrip port_input) = some np
             ∧ (np < 1 ∨ 65535 < np
                ∨ (np ≠ pc.host_port
                   ∧ port_conflict_scan svcs1 service_name pc1.host_ip np = true)))) :
    apply_port_edit pc pc1 svcs1 service_name port_input = pc1 := by
  simp only [apply_port_edit]
  rw [if_neg hbad.1]
  rcases hbad.2 with hnone | ⟨np, hnp, hcase⟩
  · rw [hnone]
  · split
    · rfl
    · rename_i new_port heq
      obtain rfl : np = new_port := by
        rw [hnp] at heq
        exact Option.some_inj.mp heq
      by_cases hrange : 1 ≤ np ∧ np ≤ 65535
      · rw [if_pos hrange]
        have hc : np ≠ pc.host_port ∧
            port_conflict_scan svcs1 service_name pc1.host_ip np = true := by
          rcases hcase with h | h | h
          · omega
          · omega
          · exact h
        rw [if_pos hc.1, if_pos hc.2]
      · rw [if_neg hrange]

/-- Counterexample to C5 as stated: on `cfgC5`, an edit supplying the
new host IP `10.0.0.1` together with the invalid (non-numeric) port
input `abc` does *not* leave the registry in its prior state — the IP
change, applied before the port is validated, survives the rejection. -/
theorem C5_counterexample :
    int_of_string (pyStrip "abc") = none
    ∧ edit_single_port cfgC5 "x" 0 "10.0.0.1" "abc" ≠ some cfgC5
    ∧ edit_single_port cfgC5 "x" 0 "10.0.0.1" "abc" = some
        { global? := some ⟨none, none⟩,
          services? := some
            [("x", { enabled := some true, category := none, description := none,
                     ports := [⟨"10.0.0.1", 8000, 80, none⟩], profiles := [],
                     reverse_proxy := none })],
          profiles? := some [] } :=
  ⟨by decide, by decide, by decide⟩

/-- **C5 (amended).**  When the interactive single-port edit receives
an invalid host-port input (non-empty after stripping, and either
non-numeric, or outside 1–65535, or a changed value against which the
conflict check fires), the input is rejected and the entry's
`host_port` is unchanged; the registry as a whole is left in its prior
state exactly when the host-IP input supplied in the same interaction
was empty (after stripping) or equal to the current host address —
otherwise the already-applied IP edit survives the port rejection. -/
theorem C5_invalid_port_rejected (cfg : ConfigFile)
    (svcs : List (String × Service)) (service_name : String) (sc : Service)
    (pc : PortMapping) (port_index : Nat) (ip_input port_input : String)
    (hs : cfg.services? = some svcs) (hl : svcs.lookup service_name = some sc)
    (hidx : sc.ports.get? port_index = some pc)
    (hbad : pyStrip port_input ≠ ""
      ∧ (int_of_string (pyStrip port_input) = none
         ∨ ∃ np, int_of_string (pyStrip port_input) = some np
             ∧ (np < 1 ∨ 65535 < np
                ∨ (np ≠ pc.host_port
                   ∧ port_conflict_scan
                       (setPortAt service_name port_index
                         (apply_ip_edit pc ip_input) svcs)
                       service_name (apply_ip_edit pc ip_input).host_ip np
                     = true)))) :
    edit_single_port cfg service_name port_index ip_input port_input =
      some { cfg with services? := some (setPortAt service_name port_index
        (apply_ip_edit pc ip_input) svcs) }
    ∧ (apply_ip_edit pc ip_input).host_port = pc.host_port
    ∧ ((pyStrip ip_input = "" ∨ pyStrip ip_input = pc.host_ip) →
        edit_single_port cfg service_name port_index ip_input port_input =
          some cfg) := by
  have hmain := edit_single_port_eq cfg svcs service_name sc pc port_index
    ip_input port_input hs hl hidx
  rw [apply_port_edit_rejected pc (apply_ip_edit pc ip_input) _ service_name
    port_input hbad] at hmain
  refine ⟨hmain, apply_ip_edit_host_port pc ip_input, ?_⟩
  intro hip
  rw [hmain, apply_ip_edit_id pc ip_input hip,
    setPortAt_self service_name port_index pc svcs sc hl hidx,
    config_update_self cfg svcs hs]

/-- Witness for C5 (amended): on `cfgC5`, an empty IP input and the
out-of-range port input `70000` are rejected with the registry fully
unchanged. -/
theorem C5_witness :
    edit_single_port cfgC5 "x" 0 "" "70000" =
      some { cfgC5 with services? := some (setPortAt "x" 0
        (apply_ip_edit ⟨"127.0.0.1", 8000, 80, none⟩ "") svcsC5) }
    ∧ (apply_ip_edit ⟨"127.0.0.1", 8000, 80, none⟩ "").host_port = 8000
    ∧ ((pyStrip "" = "" ∨ pyStrip "" = "127.0.0.1") →
        edit_single_port cfgC5 "x" 0 "" "70000" = some cfgC5) :=
  C5_invalid_port_rejected cfgC5 svcsC5 "x"
    { enabled := some true, category := none, description := none,
      ports := [⟨"127.0.0.1", 8000, 80, none⟩], profiles := [],
      reverse_proxy := none }
    ⟨"127.0.0.1", 8000, 80, none⟩ 0 "" "70000" rfl rfl rfl
    ⟨by decide, Or.inr ⟨70000, by decide, Or.inr (Or.inl (by decide))⟩⟩
